import Mathlib

/-!
Verification of the vtable-synthesis and dispatch machinery of
`src/metaprogrammed_polymorphism/polymorphic.hpp` (namespace `polymorphic`).

The embedding models:
* a method signature (`Sig`): user signatures are identified by a tag;
  `Sig.copyable` stands for the implicit clone signature
  `std::unique_ptr<detail::holder>(detail::clone) const` appended to every
  owning handle's table;
* the per-concrete-type static stub array built by `vtable_imp::get_vtable`:
  its identity (C++ pointer identity) is the pair of the concrete type and the
  signature ordering it was instantiated with (`VPtr`), and the stub stored at
  slot `i` behaves as the free function `poly_extend` for signature `i`
  (`stubSem`);
* `vtable_imp` with its two data members `vptr_` and `permutation_`, plus the
  type-level signature pack `sigs` (the `Signatures...` template argument),
  its two constructors (`ofType`, `convert`) and `call`;
* the handles `ref` and the two `object_imp` shapes, over an explicit heap of
  type-erased values so that ownership, cloning and mutation are observable.

Machine integers: `detail::index_type` is `std::uint8_t`; the only place its
width matters is the `static_assert` bounding the signature count, modelled
by `index_type_max`/`static_assert_holds`.
-/

namespace Polymorphic

/-- Identity of a concrete C++ type (the `T` in `type<T>`). -/
abbrev TypeId := ℕ

/-- Contents of a value of a concrete type, as seen through the erased address. -/
abbrev Val := ℕ

/-- An argument pack for a method call. -/
abbrev Arg := ℕ

/-- A method return value. -/
abbrev Ret := ℕ

/-- A type-erased address (index into the heap of held values). -/
abbrev Addr := ℕ

/-- A method signature.  A user signature `Return(Method, Parameters...)`
is identified by a tag; `copyable` is the distinct implicit clone signature
`std::unique_ptr<detail::holder>(detail::clone) const` (polymorphic.hpp:192).
In C++ the clone signature is a distinct type from every user signature, which
the two constructors reflect. -/
inductive Sig where
  | method : ℕ → Sig
  | copyable : Sig
deriving DecidableEq

/-- The free functions `poly_extend(Method*, T&, Parameters...)` of one
concrete type: for the user signature tagged `n`, `impl n v a` is the result
together with the (possibly mutated) value seen through the erased address. -/
structure ConcreteType where
  impl : ℕ → Val → Arg → Ret × Val

/-- The program environment: every concrete type's `poly_extend` overloads. -/
abbrev Env := TypeId → ConcreteType

/-- The heap of held values: erased addresses map to value contents, and
`next` is the next fresh address handed out by an allocation. -/
structure Heap where
  contents : Addr → Val
  next : Addr

/-- Read the value at an erased address (dereferencing the `void*`). -/
def Heap.get (h : Heap) (a : Addr) : Val := h.contents a

/-- Write the value at an erased address (a mutation through the `void*`). -/
def Heap.set (h : Heap) (a : Addr) (v : Val) : Heap :=
  ⟨fun x => if x = a then v else h.contents x, h.next⟩

/-- Allocate fresh storage holding `v` (as `std::make_unique<holder_imp<T>>`
does), returning the new heap and the fresh address. -/
def Heap.alloc (h : Heap) (v : Val) : Heap × Addr :=
  (⟨fun x => if x = h.next then v else h.contents x, h.next + 1⟩, h.next)

/-- Identity of the process-lifetime static stub array built by
`vtable_imp::get_vtable` (polymorphic.hpp:99-103).  The array is a function
local `static` of the member template `get_vtable<T>` of one `vtable_imp`
instantiation, so its C++ address is determined by the concrete type and by
the signature pack the instantiation was declared with; two `vptr_` values are
the same pointer exactly when these agree. -/
structure VPtr where
  tid : TypeId
  sigs : List Sig
deriving DecidableEq

/-- `vtable_imp::get_vtable(type<T>)`: returns the static stub array for the
concrete type `tid` built for the declared ordering `sigs`. -/
def get_vtable (tid : TypeId) (sigs : List Sig) : VPtr := ⟨tid, sigs⟩

/-- Result of invoking one type-erased stub: the heap afterwards, the returned
value, and, for the clone stub only, the returned freshly allocated holder. -/
structure StubOut where
  heap : Heap
  ret : Ret
  retHolder : Option Addr

/-- Behaviour of the stub stored in slot `s` of the static array for concrete
type `tid` (`vtable_entry::get_entry`, polymorphic.hpp:37-43 and 59-65):
a user-signature stub casts the erased address back to `T*` and forwards to
`poly_extend(Method*, T&, parameters...)`; the clone stub forwards to
`detail::poly_extend(clone*, const T&)` (polymorphic.hpp:186-188), which
allocates a fresh holder containing a copy of the pointed-to value. -/
def stubSem (env : Env) (tid : TypeId) (s : Sig) (h : Heap) (addr : Addr)
    (a : Arg) : StubOut :=
  match s with
  | Sig.method n =>
    let r := (env tid).impl n (h.get addr) a
    ⟨h.set addr r.2, r.1, none⟩
  | Sig.copyable =>
    let p := h.alloc (h.get addr)
    ⟨p.1, 0, some p.2⟩

/-- `detail::vtable_imp<std::index_sequence<I...>, Signatures...>`
(polymorphic.hpp:93-123).  `vptr_` and `permutation_` are its two data
members; `sigs` records the type-level `Signatures...` pack (it determines
`get_index` and the overload of `call_imp` chosen by `call`). -/
structure vtable_imp where
  vptr_ : VPtr
  sigs : List Sig
  permutation_ : List ℕ
deriving DecidableEq

/-- The constructor `vtable_imp(type<T>)` (polymorphic.hpp:105-106):
points `vptr_` at the static array for `T` built with this instantiation's
ordering, and initialises `permutation_{I...}` with the identity. -/
def vtable_imp.ofType (tid : TypeId) (sigs : List Sig) : vtable_imp :=
  ⟨get_vtable tid sigs, sigs, List.range sigs.length⟩

/-- `get_index(type<Signature>)` (polymorphic.hpp:51, 72, 84): the slot index
`I` of the entry declaring signature `s`, i.e. the position of `s` in the
declared pack.  In C++ a signature absent from the pack makes the call
ill-formed; the model returns the out-of-range value `sigs.length` there
(`List.indexOf` convention), and the theorems carry membership hypotheses. -/
def vtable_imp.get_index (vt : vtable_imp) (s : Sig) : ℕ := vt.sigs.indexOf s

/-- The converting constructor
`vtable_imp(const vtable_imp<OtherSequence, OtherSignatures...>&)`
(polymorphic.hpp:111-115): copies `vptr_` and rebuilds the permutation as
`permutation_{other.permutation_[other.get_index(type<Signatures>{})]...}`. -/
def vtable_imp.convert (other : vtable_imp) (sigs : List Sig) : vtable_imp :=
  ⟨other.vptr_, sigs,
    sigs.map fun s => other.permutation_.getD (other.get_index s) 0⟩

/-- `vtable_imp::call` (polymorphic.hpp:117-122) together with
`vtable_entry::call_imp` (polymorphic.hpp:45-49, 67-71): overload resolution
on the method tag selects the entry whose slot index `I` is the position of
the method's signature in this instantiation's declared pack, and the entry
invokes `vt[permutation[I]]` on the erased address. -/
def vtable_imp.call (env : Env) (vt : vtable_imp) (m : Sig) (h : Heap)
    (addr : Addr) (a : Arg) : StubOut :=
  stubSem env vt.vptr_.tid
    (vt.vptr_.sigs.getD (vt.permutation_.getD (vt.get_index m) 0)
      (Sig.method 0))
    h addr a

/-- `std::numeric_limits<detail::index_type>::max()` for
`index_type = std::uint8_t` (polymorphic.hpp:29), i.e. `2 ^ 8 - 1`. -/
def index_type_max : ℕ := 2 ^ 8 - 1

/-- The guard `static_assert(sizeof...(Signatures) <=
std::numeric_limits<index_type>::max())` of `vtable_imp`
(polymorphic.hpp:96-97): `true` exactly when the instantiation compiles. -/
def static_assert_holds (sigs : List Sig) : Bool :=
  decide (sigs.length ≤ index_type_max)

/-! ### Supporting list lemmas -/

theorem getD_range_eq (n i : ℕ) (hi : i < n) : (List.range n).getD i 0 = i := by
  rw [List.getD_eq_getElem _ _ (by simpa using hi)]
  exact List.getElem_range _ _

theorem getD_indexOf_self {S : List Sig} {m : Sig} (hm : m ∈ S) (d : Sig) :
    S.getD (S.indexOf m) d = m := by
  rw [List.getD_eq_getElem _ _ (List.indexOf_lt_length.mpr hm)]
  exact List.getElem_indexOf _

/-- Dispatch through a vtable built directly from a concrete type reaches the
stub of the requested signature. -/
theorem vtable_imp.call_ofType (env : Env) (tid : TypeId) (S : List Sig)
    {m : Sig} (hm : m ∈ S) (h : Heap) (addr : Addr) (a : Arg) :
    (vtable_imp.ofType tid S).call env m h addr a = stubSem env tid m h addr a := by
  unfold vtable_imp.call vtable_imp.ofType vtable_imp.get_index get_vtable
  simp only
  rw [getD_range_eq _ _ (List.indexOf_lt_length.mpr hm), getD_indexOf_self hm]

/-- The rebuilt permutation entry of a converted vtable, elementwise:
entry `i` is the source's permutation entry at the slot index that the new
pack's `i`-th signature has in the source's declared ordering. -/
theorem vtable_imp.convert_permutation_getD (vt : vtable_imp) (S' : List Sig)
    (i : ℕ) (hi : i < S'.length) :
    (vt.convert S').permutation_.getD i 0
      = vt.permutation_.getD (vt.get_index (S'.getD i (Sig.method 0))) 0 := by
  unfold vtable_imp.convert
  simp only
  rw [List.getD_eq_getElem _ _ (by simpa using hi), List.getElem_map,
    List.getD_eq_getElem _ _ hi]

/-- Dispatch through a vtable converted from a directly built one reaches the
stub of the requested signature, provided the signature is declared by both
packs. -/
theorem vtable_imp.call_convert_ofType (env : Env) (tid : TypeId)
    (S S' : List Sig) {m : Sig} (hm' : m ∈ S') (hm : m ∈ S) (h : Heap)
    (addr : Addr) (a : Arg) :
    ((vtable_imp.ofType tid S).convert S').call env m h addr a
      = stubSem env tid m h addr a := by
  unfold vtable_imp.call
  rw [show ((vtable_imp.ofType tid S).convert S').get_index m = S'.indexOf m from rfl,
    vtable_imp.convert_permutation_getD _ _ _ (List.indexOf_lt_length.mpr hm'),
    getD_indexOf_self hm']
  show stubSem env tid
      (S.getD ((List.range S.length).getD (S.indexOf m) 0) (Sig.method 0)) h addr a
    = stubSem env tid m h addr a
  rw [getD_range_eq _ _ (List.indexOf_lt_length.mpr hm), getD_indexOf_self hm]

/-! ### Claim theorems on the vtable core -/

/-- C9: a vtable constructed directly from a concrete type has the identity
permutation: `permutation_[i] = i` for every `i` below the number of declared
signatures (polymorphic.hpp:105-106, `permutation_{I...}`). -/
theorem c9_direct_vtable_identity_permutation (tid : TypeId) (S : List Sig)
    (i : ℕ) (hi : i < S.length) :
    (vtable_imp.ofType tid S).permutation_.getD i 0 = i :=
  getD_range_eq _ _ hi

/-- C9 witness. -/
theorem c9_witness :
    1 < ([Sig.method 4, Sig.method 7, Sig.copyable] : List Sig).length
    ∧ (vtable_imp.ofType 3 [Sig.method 4, Sig.method 7, Sig.copyable]).permutation_.getD 1 0 = 1 :=
  ⟨by decide,
    c9_direct_vtable_identity_permutation 3 [Sig.method 4, Sig.method 7, Sig.copyable] 1 (by decide)⟩

/-- C10: converting a vtable from another compatible vtable copies the
`vptr_` pointer unchanged (polymorphic.hpp:113, `vptr_(other.vptr_)`): the
per-concrete-type static stub array is never rebuilt or copied by a
conversion, whatever the new signature pack is. -/
theorem c10_convert_preserves_vptr (src : vtable_imp) (S' : List Sig) :
    (src.convert S').vptr_ = src.vptr_ := rfl

/-! ### Heap lemmas -/

theorem Heap.get_set_self (h : Heap) (a : Addr) (v : Val) :
    (h.set a v).get a = v := by
  simp [Heap.set, Heap.get]

theorem Heap.get_set_ne (h : Heap) (a b : Addr) (v : Val) (hne : b ≠ a) :
    (h.set a v).get b = h.get b := by
  simp [Heap.set, Heap.get, hne]

theorem Heap.get_alloc_self (h : Heap) (v : Val) :
    (h.alloc v).1.get (h.alloc v).2 = v := by
  simp [Heap.alloc, Heap.get]

theorem Heap.get_alloc_ne (h : Heap) (v : Val) (b : Addr) (hne : b ≠ h.next) :
    (h.alloc v).1.get b = h.get b := by
  simp [Heap.alloc, Heap.get, hne]

/-! ### Handles -/

/-- The non-owning handle `polymorphic::ref<Signatures...>`
(polymorphic.hpp:144-170): a vtable by value plus the type-erased address of
the referenced value (`t_`, null when default-like/empty). -/
structure ref where
  vt_ : vtable_imp
  t_ : Option Addr

/-- The constructor `ref(T&)` (polymorphic.hpp:151-153): builds the identity
vtable for the concrete type over this handle's declared pack and stores the
value's address. -/
def ref.ofValue (tid : TypeId) (S : List Sig) (addr : Addr) : ref :=
  ⟨vtable_imp.ofType tid S, some addr⟩

/-- The constructor `ref(const Poly&)` (polymorphic.hpp:155-157): converts the
source handle's vtable to this handle's declared pack and copies the erased
address. -/
def ref.ofPoly (S : List Sig) (other : ref) : ref :=
  ⟨other.vt_.convert S, other.t_⟩

/-- `ref::call<Method>` (polymorphic.hpp:165-169): dispatches through the
stored vtable on the stored address.  Calling through a null handle is a
documented precondition violation (UB) in C++; the model reads the arbitrary
address 0 there, and every theorem supplies a non-null handle. -/
def ref.call (env : Env) (r : ref) (m : Sig) (h : Heap) (a : Arg) : StubOut :=
  r.vt_.call env m h (r.t_.getD 0) a

/-- The exclusively-owning shape `object_imp<false, Signatures...>`
(polymorphic.hpp:196-242): a vtable plus unique ownership of a holder
(`std::unique_ptr<holder> t_`), modelled as the optional address of the held
value's storage. -/
structure object_imp where
  vt_ : vtable_imp
  t_ : Option Addr

/-- The constructor `object_imp(T t)` (polymorphic.hpp:204-208) as
instantiated through the alias `object<Signatures...>`
(polymorphic.hpp:289-291): the class's signature pack is the user pack with
`copyable` appended; the constructor builds the identity vtable for the
concrete type over that pack and moves the value into freshly allocated
holder storage. -/
def object_imp.ofValue (tid : TypeId) (S : List Sig) (v : Val) (h : Heap) :
    Heap × object_imp :=
  ((h.alloc v).1,
    ⟨vtable_imp.ofType tid (S ++ [Sig.copyable]), some (h.alloc v).2⟩)

/-- `object_imp::get_ptr` (polymorphic.hpp:228-229):
`t_ ? t_->ptr : nullptr`. -/
def object_imp.get_ptr (o : object_imp) : Option Addr := o.t_

/-- `object_imp::call<Method>` (polymorphic.hpp:231-241): dispatches through
the stored vtable on `get_ptr()`; calling an empty handle is UB in C++,
modelled by the arbitrary address 0. -/
def object_imp.call (env : Env) (o : object_imp) (m : Sig) (h : Heap)
    (a : Arg) : StubOut :=
  o.vt_.call env m h (o.t_.getD 0) a

/-- The copy constructor `object_imp(const object_imp&)`
(polymorphic.hpp:216-218): copies the vtable and initialises `t_` with
`other ? other.call<detail::clone>() : nullptr`, i.e. a null source yields a
null handle and a non-null source is cloned through its own vtable's clone
entry. -/
def object_imp.copy (env : Env) (h : Heap) (other : object_imp) :
    Heap × object_imp :=
  match other.t_ with
  | none => (h, ⟨other.vt_, none⟩)
  | some _ =>
    let out := other.call env Sig.copyable h 0
    (out.heap, ⟨other.vt_, out.retHolder⟩)

/-! ### Claim theorems on handles -/

/-- C1: a handle built with a reordered or subset signature pack from a source
handle over a concrete type dispatches every one of its declared methods to
the same result as the source handle does, and the rebuilt permutation entry
for each new signature is the source's permutation entry at that signature's
slot index in the source's declared ordering (polymorphic.hpp:111-115,
45-49). -/
theorem c1_reordered_subset_dispatch_agrees (env : Env) (tid : TypeId)
    (S S' : List Sig) (addr : Addr) (h : Heap) (a : Arg)
    (hsub : ∀ s ∈ S', s ∈ S) :
    (∀ m ∈ S',
      (ref.ofPoly S' (ref.ofValue tid S addr)).call env m h a
        = (ref.ofValue tid S addr).call env m h a)
    ∧ ∀ (vt : vtable_imp) (i : ℕ), i < S'.length →
        (vt.convert S').permutation_.getD i 0
          = vt.permutation_.getD (vt.get_index (S'.getD i (Sig.method 0))) 0 := by
  refine ⟨fun m hm => ?_, fun vt i hi => vtable_imp.convert_permutation_getD vt S' i hi⟩
  unfold ref.call ref.ofPoly ref.ofValue
  simp only
  rw [vtable_imp.call_convert_ofType env tid S S' hm (hsub m hm),
    vtable_imp.call_ofType env tid S (hsub m hm)]

/-- A concrete environment used by the witness theorems. -/
def envW : Env := fun tid => ⟨fun n v a => (tid + 10 * n + 100 * v + a, v + 1)⟩

/-- A concrete heap used by the witness theorems. -/
def heapW : Heap := ⟨fun x => 5 + x, 20⟩

/-- C1 witness. -/
theorem c1_witness :
    (∀ s ∈ ([Sig.method 2] : List Sig),
        s ∈ ([Sig.method 1, Sig.method 2] : List Sig))
    ∧ ((∀ m ∈ ([Sig.method 2] : List Sig),
        (ref.ofPoly [Sig.method 2]
            (ref.ofValue 3 [Sig.method 1, Sig.method 2] 7)).call envW m heapW 4
          = (ref.ofValue 3 [Sig.method 1, Sig.method 2] 7).call envW m heapW 4)
      ∧ ∀ (vt : vtable_imp) (i : ℕ), i < ([Sig.method 2] : List Sig).length →
          (vt.convert [Sig.method 2]).permutation_.getD i 0
            = vt.permutation_.getD
                (vt.get_index (([Sig.method 2] : List Sig).getD i (Sig.method 0))) 0) :=
  ⟨by decide,
    c1_reordered_subset_dispatch_agrees envW 3 [Sig.method 1, Sig.method 2]
      [Sig.method 2] 7 heapW 4 (by decide)⟩

/-- C2: calling a declared method on a `ref` or an owning `object` handle
built over a value of a concrete type returns exactly what the free function
`poly_extend` returns on that value (polymorphic.hpp:37-43, 117-122,
165-169). -/
theorem c2_handle_call_equals_free_function (env : Env) (tid : TypeId)
    (S : List Sig) (n : ℕ) (addr : Addr) (h : Heap) (v : Val) (h0 : Heap)
    (a : Arg) (hm : Sig.method n ∈ S) :
    ((ref.ofValue tid S addr).call env (Sig.method n) h a).ret
      = ((env tid).impl n (h.get addr) a).1
    ∧ ((object_imp.ofValue tid S v h0).2.call env (Sig.method n)
          (object_imp.ofValue tid S v h0).1 a).ret
      = ((env tid).impl n v a).1 := by
  constructor
  · unfold ref.call ref.ofValue
    simp only
    rw [vtable_imp.call_ofType env tid S hm]
    rfl
  · unfold object_imp.call object_imp.ofValue
    simp only
    rw [vtable_imp.call_ofType env tid (S ++ [Sig.copyable])
        (List.mem_append_left _ hm)]
    show ((env tid).impl n ((h0.alloc v).1.get (h0.alloc v).2) a).1
      = ((env tid).impl n v a).1
    rw [Heap.get_alloc_self]

/-- C2 witness. -/
theorem c2_witness :
    Sig.method 2 ∈ ([Sig.method 1, Sig.method 2] : List Sig)
    ∧ (((ref.ofValue 3 [Sig.method 1, Sig.method 2] 7).call envW
          (Sig.method 2) heapW 4).ret
        = ((envW 3).impl 2 (heapW.get 7) 4).1
      ∧ (((object_imp.ofValue 3 [Sig.method 1, Sig.method 2] 6 heapW)).2.call envW
            (Sig.method 2) ((object_imp.ofValue 3 [Sig.method 1, Sig.method 2] 6 heapW)).1 4).ret
        = ((envW 3).impl 2 6 4).1) :=
  ⟨by decide,
    c2_handle_call_equals_free_function envW 3 [Sig.method 1, Sig.method 2] 2 7
      heapW 6 heapW 4 (by decide)⟩

/-- C6 counterexample: the claim says a table declaring up to 256 signatures
is accepted, but the guard `sizeof...(Signatures) <=
std::numeric_limits<uint8_t>::max()` rejects a pack of exactly 256
signatures (256 > 255), so such an instantiation is a compile-time failure. -/
theorem c6_counterexample_256_rejected :
    static_assert_holds ((List.range 256).map Sig.method) = false := by
  unfold static_assert_holds
  rw [show ((List.range 256).map Sig.method).length = 256 by simp]
  decide

/-- C6 (amended): a table declaring up to 255 method signatures is accepted,
and declaring 256 or more is a compile-time failure caused by the capacity of
`index_type` (`std::uint8_t`, maximum 255). -/
theorem c6_capacity_is_255 (S : List Sig) :
    static_assert_holds S = true ↔ S.length ≤ 255 := by
  simp [static_assert_holds, index_type_max]

/-! ### Reduction lemmas for the owning handles -/

theorem object_imp.copy_none (env : Env) (h : Heap) (vt : vtable_imp) :
    object_imp.copy env h ⟨vt, none⟩ = (h, ⟨vt, none⟩) := rfl

theorem object_imp.copy_some (env : Env) (h : Heap) (vt : vtable_imp)
    (a : Addr) :
    object_imp.copy env h ⟨vt, some a⟩
      = ((vt.call env Sig.copyable h a 0).heap,
          ⟨vt, (vt.call env Sig.copyable h a 0).retHolder⟩) := rfl

/-- Invoking the clone entry of a directly built owning vtable on the storage
freshly allocated for the held value duplicates that value into the next
fresh cell. -/
theorem vtable_imp.clone_of_direct (env : Env) (tid : TypeId) (S : List Sig)
    (v : Val) (h0 : Heap) :
    (vtable_imp.ofType tid (S ++ [Sig.copyable])).call env Sig.copyable
        (h0.alloc v).1 h0.next 0
      = ⟨((h0.alloc v).1.alloc v).1, 0, some (h0.next + 1)⟩ := by
  rw [vtable_imp.call_ofType env tid (S ++ [Sig.copyable])
      (List.mem_append_right _ (List.mem_singleton.mpr rfl))]
  show (⟨((h0.alloc v).1.alloc ((h0.alloc v).1.get h0.next)).1, 0,
      some ((h0.alloc v).1.alloc ((h0.alloc v).1.get h0.next)).2⟩ : StubOut) = _
  rw [show (h0.alloc v).1.get h0.next = v from Heap.get_alloc_self h0 v]
  rfl

/-! ### Claim theorem: deep copy of the mutable owning handle -/

/-- C7: copying a non-empty mutable owning handle clones the held value into
independently owned fresh storage (polymorphic.hpp:216-218, 186-188): the
copy holds a different address with an equal value, dispatch results of copy
and original agree before any mutation, mutating the copy leaves the
original's value untouched, and copying a null handle yields a null handle. -/
theorem c7_mutable_copy_is_deep (env : Env) (tid : TypeId) (S : List Sig)
    (v : Val) (h0 : Heap) (n : ℕ) (am ao : Arg) (vt0 : vtable_imp)
    (hm : Sig.method n ∈ S) :
    (object_imp.ofValue tid S v h0).2.t_ = some h0.next
    ∧ (object_imp.copy env (object_imp.ofValue tid S v h0).1
        (object_imp.ofValue tid S v h0).2).2.t_ = some (h0.next + 1)
    ∧ (object_imp.copy env (object_imp.ofValue tid S v h0).1
        (object_imp.ofValue tid S v h0).2).1.get h0.next = v
    ∧ (object_imp.copy env (object_imp.ofValue tid S v h0).1
        (object_imp.ofValue tid S v h0).2).1.get (h0.next + 1) = v
    ∧ ((object_imp.copy env (object_imp.ofValue tid S v h0).1
          (object_imp.ofValue tid S v h0).2).2.call env (Sig.method n)
        (object_imp.copy env (object_imp.ofValue tid S v h0).1
          (object_imp.ofValue tid S v h0).2).1 ao).ret
      = ((object_imp.ofValue tid S v h0).2.call env (Sig.method n)
          (object_imp.copy env (object_imp.ofValue tid S v h0).1
            (object_imp.ofValue tid S v h0).2).1 ao).ret
    ∧ (((object_imp.copy env (object_imp.ofValue tid S v h0).1
          (object_imp.ofValue tid S v h0).2).2.call env (Sig.method n)
          (object_imp.copy env (object_imp.ofValue tid S v h0).1
            (object_imp.ofValue tid S v h0).2).1 am).heap).get h0.next = v
    ∧ (object_imp.copy env h0 ⟨vt0, none⟩).2.t_ = none := by
  have hne : h0.next ≠ h0.next + 1 := Nat.ne_of_lt (Nat.lt_succ_self _)
  have hcp : object_imp.copy env (object_imp.ofValue tid S v h0).1
        (object_imp.ofValue tid S v h0).2
      = (((h0.alloc v).1.alloc v).1,
          ⟨vtable_imp.ofType tid (S ++ [Sig.copyable]), some (h0.next + 1)⟩) := by
    show object_imp.copy env (h0.alloc v).1
        ⟨vtable_imp.ofType tid (S ++ [Sig.copyable]), some h0.next⟩ = _
    rw [object_imp.copy_some, vtable_imp.clone_of_direct]
  have hget1 : (((h0.alloc v).1.alloc v).1).get h0.next = v := by
    have h1 : (((h0.alloc v).1.alloc v).1).get h0.next = (h0.alloc v).1.get h0.next :=
      Heap.get_alloc_ne (h0.alloc v).1 v h0.next hne
    rw [h1]
    exact Heap.get_alloc_self h0 v
  have hget2 : (((h0.alloc v).1.alloc v).1).get (h0.next + 1) = v :=
    Heap.get_alloc_self (h0.alloc v).1 v
  refine ⟨rfl, ?_, ?_, ?_, ?_, ?_, rfl⟩
  · rw [hcp]
  · rw [hcp]; exact hget1
  · rw [hcp]; exact hget2
  · rw [hcp]
    show ((vtable_imp.ofType tid (S ++ [Sig.copyable])).call env (Sig.method n)
        (((h0.alloc v).1.alloc v).1) (h0.next + 1) ao).ret
      = ((vtable_imp.ofType tid (S ++ [Sig.copyable])).call env (Sig.method n)
        (((h0.alloc v).1.alloc v).1) h0.next ao).ret
    rw [vtable_imp.call_ofType env tid (S ++ [Sig.copyable])
        (List.mem_append_left _ hm),
      vtable_imp.call_ofType env tid (S ++ [Sig.copyable])
        (List.mem_append_left _ hm)]
    show ((env tid).impl n ((((h0.alloc v).1.alloc v).1).get (h0.next + 1)) ao).1
      = ((env tid).impl n ((((h0.alloc v).1.alloc v).1).get h0.next) ao).1
    rw [hget1, hget2]
  · rw [hcp]
    show (((vtable_imp.ofType tid (S ++ [Sig.copyable])).call env (Sig.method n)
        (((h0.alloc v).1.alloc v).1) (h0.next + 1) am).heap).get h0.next = v
    rw [vtable_imp.call_ofType env tid (S ++ [Sig.copyable])
        (List.mem_append_left _ hm)]
    show ((((h0.alloc v).1.alloc v).1).set (h0.next + 1)
        ((env tid).impl n ((((h0.alloc v).1.alloc v).1).get (h0.next + 1)) am).2).get h0.next = v
    rw [Heap.get_set_ne _ _ _ _ hne]
    exact hget1

/-- C7 witness. -/
theorem c7_witness :
    Sig.method 2 ∈ ([Sig.method 2] : List Sig)
    ∧ ((object_imp.ofValue 3 [Sig.method 2] 6 heapW).2.t_ = some heapW.next
      ∧ (object_imp.copy envW (object_imp.ofValue 3 [Sig.method 2] 6 heapW).1
          (object_imp.ofValue 3 [Sig.method 2] 6 heapW).2).2.t_ = some (heapW.next + 1)
      ∧ (object_imp.copy envW (object_imp.ofValue 3 [Sig.method 2] 6 heapW).1
          (object_imp.ofValue 3 [Sig.method 2] 6 heapW).2).1.get heapW.next = 6
      ∧ (object_imp.copy envW (object_imp.ofValue 3 [Sig.method 2] 6 heapW).1
          (object_imp.ofValue 3 [Sig.method 2] 6 heapW).2).1.get (heapW.next + 1) = 6
      ∧ ((object_imp.copy envW (object_imp.ofValue 3 [Sig.method 2] 6 heapW).1
            (object_imp.ofValue 3 [Sig.method 2] 6 heapW).2).2.call envW (Sig.method 2)
          (object_imp.copy envW (object_imp.ofValue 3 [Sig.method 2] 6 heapW).1
            (object_imp.ofValue 3 [Sig.method 2] 6 heapW).2).1 9).ret
        = ((object_imp.ofValue 3 [Sig.method 2] 6 heapW).2.call envW (Sig.method 2)
            (object_imp.copy envW (object_imp.ofValue 3 [Sig.method 2] 6 heapW).1
              (object_imp.ofValue 3 [Sig.method 2] 6 heapW).2).1 9).ret
      ∧ (((object_imp.copy envW (object_imp.ofValue 3 [Sig.method 2] 6 heapW).1
            (object_imp.ofValue 3 [Sig.method 2] 6 heapW).2).2.call envW (Sig.method 2)
            (object_imp.copy envW (object_imp.ofValue 3 [Sig.method 2] 6 heapW).1
              (object_imp.ofValue 3 [Sig.method 2] 6 heapW).2).1 4).heap).get heapW.next = 6
      ∧ (object_imp.copy envW heapW ⟨vtable_imp.ofType 0 [], none⟩).2.t_ = none) :=
  ⟨by decide,
    c7_mutable_copy_is_deep envW 3 [Sig.method 2] 6 heapW 2 4 9
      (vtable_imp.ofType 0 []) (by decide)⟩

/-! ### The shared (all-const) owning shape -/

/-- The shared shape `object_imp<true, Signatures...>`
(polymorphic.hpp:244-285): a vtable plus a `std::shared_ptr<const holder>`
claim on the held value's storage, modelled as the optional address of the
shared holder. -/
structure shared_object where
  vt_ : vtable_imp
  t_ : Option Addr

/-- The constructor `object_imp(T t)` of the shared shape
(polymorphic.hpp:252-256), as instantiated through the `object` alias: the
identity vtable for the concrete type over the user pack with `copyable`
appended, and fresh shared storage for the moved-in value
(`std::make_shared<holder_imp<T>>`). -/
def shared_object.ofValue (tid : TypeId) (S : List Sig) (v : Val) (h : Heap) :
    Heap × shared_object :=
  ((h.alloc v).1,
    ⟨vtable_imp.ofType tid (S ++ [Sig.copyable]), some (h.alloc v).2⟩)

/-- `get_ptr` of the shared shape (polymorphic.hpp:278):
`t_ ? t_->ptr : nullptr`. -/
def shared_object.get_ptr (o : shared_object) : Option Addr := o.t_

/-- `call<Method>` of the shared shape (polymorphic.hpp:280-284). -/
def shared_object.call (env : Env) (o : shared_object) (m : Sig) (h : Heap)
    (a : Arg) : StubOut :=
  o.vt_.call env m h (o.t_.getD 0) a

/-- The defaulted copy constructor of the shared shape
(polymorphic.hpp:268): memberwise copy of the vtable and of the
`shared_ptr`, i.e. another claim on the same holder; no allocation, no
clone. -/
def shared_object.copy (o : shared_object) : shared_object := ⟨o.vt_, o.t_⟩

/-- The converting constructor of the shared shape from a shared handle
declaring a different signature pack (polymorphic.hpp:264-266), rendered from
its written member-initialiser list `vt_(other.get_vtable()), t_(other.t_)`:
the vtable is converted and the `shared_ptr` is shared.  As C++ the
constructor does not compile when instantiated, because `t_` is a private
member of the unrelated instantiation `object_imp<true, OtherSignatures...>`
and no friend declaration exists; that failure is the code bug recorded for
claim C5. -/
def shared_object.ofOtherShared (S : List Sig) (other : shared_object) :
    shared_object :=
  ⟨other.vt_.convert S, other.t_⟩

/-- C8: copying a shared (all-const) owning handle shares the underlying
storage without cloning: the copy's `get_ptr` reports the same erased
address, and dispatch through the copy is identical to dispatch through the
original (polymorphic.hpp:268, 278). -/
theorem c8_shared_copy_shares_storage (o : shared_object) (env : Env)
    (m : Sig) (h : Heap) (a : Arg) :
    (shared_object.copy o).get_ptr = o.get_ptr
    ∧ (shared_object.copy o).call env m h a = o.call env m h a :=
  ⟨rfl, rfl⟩

/-- C5: the written member-initialiser list of the shared-to-shared
converting constructor (polymorphic.hpp:264-266) converts the
table/permutation and preserves the same underlying shared storage: equal
`get_ptr`, the same holder, and no clone (the construction never touches the
heap).  The constructor itself is rejected by the C++ access rules, which is
the code bug recorded for this claim. -/
theorem c5_shared_conversion_shares_storage (other : shared_object)
    (S : List Sig) :
    (shared_object.ofOtherShared S other).get_ptr = other.get_ptr
    ∧ (shared_object.ofOtherShared S other).t_ = other.t_
    ∧ (shared_object.ofOtherShared S other).vt_ = other.vt_.convert S :=
  ⟨rfl, rfl, rfl⟩

/-! ### Copy-assignment of the mutable shape (spec-modelled) -/

/-- Modelled from the spec: the copy-assignment of the mutable owning shape,
missing from the source as compilable code.  The operator written at
polymorphic.hpp:224 (`(*this) = ref(other);`) fails to instantiate: class
template argument deduction produces `ref<>` with an empty signature pack,
whose conversion back to `object_imp` has no `call_imp` overload to dispatch
the clone through, and the operator also falls off its end without returning
`*this`.  Spec section 4.4 defines copy-assignment as constructing a
temporary `ref`-based copy of the source and reassigning, modelled here:
borrow the source through a `ref`, build the temporary owning handle from it
(cloning the held value through the vtable's clone entry; a null source
yields a null temporary), then move the temporary's holder into the
destination, releasing the destination's old holder. -/
def object_imp.assign (env : Env) (h : Heap) (dst src : object_imp) :
    Heap × object_imp :=
  match src.t_ with
  | none => (h, ⟨dst.vt_, none⟩)
  | some _ =>
    let out := (⟨src.vt_, src.t_⟩ : ref).call env Sig.copyable h 0
    (out.heap, ⟨dst.vt_, out.retHolder⟩)

theorem object_imp.assign_some (env : Env) (h : Heap) (dst : object_imp)
    (vt : vtable_imp) (a : Addr) :
    object_imp.assign env h dst ⟨vt, some a⟩
      = ((vt.call env Sig.copyable h a 0).heap,
          ⟨dst.vt_, (vt.call env Sig.copyable h a 0).retHolder⟩) := rfl

/-- C4: self-assignment of a non-empty mutable owning handle through the
spec-described copy-assignment path (temporary ref-based copy, then
reassignment) leaves the handle functionally unchanged: it is still
non-empty, the freshly cloned storage holds the same value, and every
declared method returns the same result as before the self-assignment.  The
C++ operator itself does not compile, which is the code bug recorded for
this claim; this theorem settles the spec's required property for the
algorithm the spec prescribes. -/
theorem c4_modelled_self_assignment_keeps_state (env : Env) (tid : TypeId)
    (S : List Sig) (v : Val) (h0 : Heap) (n : ℕ) (a : Arg)
    (hm : Sig.method n ∈ S) :
    (object_imp.assign env (object_imp.ofValue tid S v h0).1
        (object_imp.ofValue tid S v h0).2 (object_imp.ofValue tid S v h0).2).2.t_
      = some (h0.next + 1)
    ∧ (object_imp.assign env (object_imp.ofValue tid S v h0).1
        (object_imp.ofValue tid S v h0).2 (object_imp.ofValue tid S v h0).2).1.get
          (h0.next + 1) = v
    ∧ ((object_imp.assign env (object_imp.ofValue tid S v h0).1
          (object_imp.ofValue tid S v h0).2 (object_imp.ofValue tid S v h0).2).2.call
          env (Sig.method n)
          (object_imp.assign env (object_imp.ofValue tid S v h0).1
            (object_imp.ofValue tid S v h0).2 (object_imp.ofValue tid S v h0).2).1
          a).ret
      = ((object_imp.ofValue tid S v h0).2.call env (Sig.method n)
          (object_imp.ofValue tid S v h0).1 a).ret := by
  have has : object_imp.assign env (object_imp.ofValue tid S v h0).1
        (object_imp.ofValue tid S v h0).2 (object_imp.ofValue tid S v h0).2
      = (((h0.alloc v).1.alloc v).1,
          ⟨vtable_imp.ofType tid (S ++ [Sig.copyable]), some (h0.next + 1)⟩) := by
    show object_imp.assign env (h0.alloc v).1
        ⟨vtable_imp.ofType tid (S ++ [Sig.copyable]), some h0.next⟩
        ⟨vtable_imp.ofType tid (S ++ [Sig.copyable]), some h0.next⟩ = _
    rw [object_imp.assign_some, vtable_imp.clone_of_direct]
  have hget2 : (((h0.alloc v).1.alloc v).1).get (h0.next + 1) = v :=
    Heap.get_alloc_self (h0.alloc v).1 v
  refine ⟨?_, ?_, ?_⟩
  · rw [has]
  · rw [has]; exact hget2
  · rw [has]
    show ((vtable_imp.ofType tid (S ++ [Sig.copyable])).call env (Sig.method n)
        (((h0.alloc v).1.alloc v).1) (h0.next + 1) a).ret
      = ((vtable_imp.ofType tid (S ++ [Sig.copyable])).call env (Sig.method n)
        (h0.alloc v).1 h0.next a).ret
    rw [vtable_imp.call_ofType env tid (S ++ [Sig.copyable])
        (List.mem_append_left _ hm),
      vtable_imp.call_ofType env tid (S ++ [Sig.copyable])
        (List.mem_append_left _ hm)]
    show ((env tid).impl n ((((h0.alloc v).1.alloc v).1).get (h0.next + 1)) a).1
      = ((env tid).impl n ((h0.alloc v).1.get h0.next) a).1
    rw [hget2, show (h0.alloc v).1.get h0.next = v from Heap.get_alloc_self h0 v]

/-- C4 witness. -/
theorem c4_witness :
    Sig.method 2 ∈ ([Sig.method 2] : List Sig)
    ∧ ((object_imp.assign envW (object_imp.ofValue 3 [Sig.method 2] 6 heapW).1
          (object_imp.ofValue 3 [Sig.method 2] 6 heapW).2
          (object_imp.ofValue 3 [Sig.method 2] 6 heapW).2).2.t_
        = some (heapW.next + 1)
      ∧ (object_imp.assign envW (object_imp.ofValue 3 [Sig.method 2] 6 heapW).1
          (object_imp.ofValue 3 [Sig.method 2] 6 heapW).2
          (object_imp.ofValue 3 [Sig.method 2] 6 heapW).2).1.get (heapW.next + 1) = 6
      ∧ ((object_imp.assign envW (object_imp.ofValue 3 [Sig.method 2] 6 heapW).1
            (object_imp.ofValue 3 [Sig.method 2] 6 heapW).2
            (object_imp.ofValue 3 [Sig.method 2] 6 heapW).2).2.call envW (Sig.method 2)
            (object_imp.assign envW (object_imp.ofValue 3 [Sig.method 2] 6 heapW).1
              (object_imp.ofValue 3 [Sig.method 2] 6 heapW).2
              (object_imp.ofValue 3 [Sig.method 2] 6 heapW).2).1 4).ret
        = ((object_imp.ofValue 3 [Sig.method 2] 6 heapW).2.call envW (Sig.method 2)
            (object_imp.ofValue 3 [Sig.method 2] 6 heapW).1 4).ret) :=
  ⟨by decide,
    c4_modelled_self_assignment_keeps_state envW 3 [Sig.method 2] 6 heapW 2 4
      (by decide)⟩

/-! ### Destruction of the mutable owning handle -/

/-- Counters of destructor executions observed while tearing down owning
handles: how many times the base `holder` destructor body ran, and how many
times the held value's own destructor ran. -/
structure DtorLog where
  holderDtorRuns : ℕ
  valueDtorRuns : ℕ
deriving DecidableEq

/-- The destructor `holder::~holder()` (polymorphic.hpp:176-179): an empty
body; it destroys no held value, and it is not declared `virtual`. -/
def holder_dtor (log : DtorLog) : DtorLog :=
  { log with holderDtorRuns := log.holderDtorRuns + 1 }

/-- What the implicit destructor of `holder_imp<T>` (polymorphic.hpp:181-184)
does when it runs: destroy the held member `t_` (the value's destructor),
then run the base `~holder()`. -/
def holder_imp_dtor (log : DtorLog) : DtorLog :=
  holder_dtor { log with valueDtorRuns := log.valueDtorRuns + 1 }

/-- The deleter of `std::unique_ptr<holder>` executes `delete p` on a pointer
whose static type is `holder*`.  Since `~holder()` is not virtual, the
destructor that runs is selected statically: only `holder::~holder()`
executes (formally this deletion of a derived object through a base pointer
is undefined behaviour), and `holder_imp<T>::~holder_imp()` — with it the
held value's destructor — is skipped. -/
def delete_holder_ptr (log : DtorLog) : DtorLog := holder_dtor log

/-- The implicit destructor of the mutable `object_imp` shape
(polymorphic.hpp:196-242): destroys the member `std::unique_ptr<holder> t_`,
which, when non-null, deletes the owned holder through a `holder*`. -/
def object_imp_dtor (t : Option Addr) (log : DtorLog) : DtorLog :=
  match t with
  | none => log
  | some _ => delete_holder_ptr log

/-- C3: destroying the single owning handle of a held value runs the base
`holder` destructor once but the held value's destructor zero times — not
once, as the claim states — because `unique_ptr<holder>` deletes the
`holder_imp<T>` through a non-virtual base destructor; the third conjunct
records that running the derived destructor (which the code never reaches)
is what would have destroyed the value exactly once. -/
theorem c3_value_dtor_skipped :
    (object_imp_dtor (some 0) ⟨0, 0⟩).valueDtorRuns = 0
    ∧ (object_imp_dtor (some 0) ⟨0, 0⟩).holderDtorRuns = 1
    ∧ (holder_imp_dtor ⟨0, 0⟩).valueDtorRuns = 1 := by
  exact ⟨rfl, rfl, rfl⟩
